import Mathlib

/-!
Verification of the `object-pool` crate (`src/lib.rs`): a LIFO object pool
with guard types that automatically return values on scope exit, plus
explicit detach/reattach semantics.

Shallow embedding conventions:
* The Rust `Vec<T>` behind the mutex is a `List α` kept in Vec order: the
  last element of the list is the top of the stack (`Vec::push` appends,
  `Vec::pop` removes the last element).
* The mutex is elided: every operation is serialized, so each one is a pure
  function from the pool state (and its arguments) to a result and the next
  pool state.
* The guards (`Reusable`, `ReusableOwned`) store only their wrapped value.
  The `pool` field of the Rust structs — a borrow resp. an `Arc` — names
  which pool the guard returns to; here that pool's current state is passed
  explicitly to the operations (`drop`, `detach`) that consult the field.
* Rust `Drop::drop` and `detach` become explicit functions; a guard's life
  ends in exactly one of them, which the Rust type system enforces
  structurally (drop runs unless `forget` suppressed it inside `detach`).
-/

namespace ObjectPool

variable {α : Type}

/-- Rust `Vec::pop`: remove and return the last element, `None` on empty. -/
def vecPop (s : List α) : Option (α × List α) :=
  match s.getLast? with
  | none => none
  | some x => some (x, s.dropLast)

/-- Rust `Vec::push`: append an element at the end. -/
def vecPush (s : List α) (t : α) : List α :=
  s ++ [t]

/-- `Pool<T>` from `src/lib.rs`: `objects: Mutex<Stack<T>>` with
`Stack<T> = Vec<T>`; the mutex is elided per the embedding conventions. -/
structure Pool (α : Type) where
  objects : List α
deriving DecidableEq

/-- `Pool::new(cap, init)`: eagerly builds `cap` values by invoking `init`
that many times (`(0..cap).map(|_| init()).collect()`); the stateful `FnMut`
closure is rendered as a function of the call index. -/
def Pool.new (cap : Nat) (init : Nat → α) : Pool α :=
  ⟨(List.range cap).map init⟩

/-- `Pool::from_vec(v)`: wraps an existing vector as the stack. -/
def Pool.from_vec (v : List α) : Pool α :=
  ⟨v⟩

/-- `Pool::len()`: current stack size. -/
def Pool.len (p : Pool α) : Nat :=
  p.objects.length

/-- `Pool::is_empty()`. -/
def Pool.is_empty (p : Pool α) : Bool :=
  p.objects.isEmpty

/-- `Pool::attach(t)`: `self.objects.lock().push(t)`. -/
def Pool.attach (p : Pool α) (t : α) : Pool α :=
  ⟨vecPush p.objects t⟩

/-- `Reusable<'a, T>`: the borrowed guard; `data: ManuallyDrop<T>`. The
`pool: &'a Pool<T>` borrow is rendered by explicit state passing. -/
structure Reusable (α : Type) where
  data : α
deriving DecidableEq

/-- `Reusable::new(pool, t)`: wraps `t` in a guard tied to the pool. -/
def Reusable.new (t : α) : Reusable α :=
  ⟨t⟩

/-- `Pool::try_pull()`: `self.objects.lock().pop().map(|data| Reusable::new(self, data))`.
Returns the optional guard together with the successor pool state. -/
def Pool.try_pull (p : Pool α) : Option (Reusable α) × Pool α :=
  match vecPop p.objects with
  | none => (none, p)
  | some (x, rest) => (some (Reusable.new x), ⟨rest⟩)

/-- `Pool::pull(fallback)`: `self.try_pull().unwrap_or_else(|| Reusable::new(self, fallback()))`. -/
def Pool.pull (p : Pool α) (fallback : Unit → α) : Reusable α × Pool α :=
  match p.try_pull with
  | (some r, p1) => (r, p1)
  | (none, p1) => (Reusable.new (fallback ()), p1)

/-- `Reusable::detach()`: yields the pool borrow and the owned value, and
suppresses the destructor via `forget`, so no automatic return fires; the
pool state is untouched. -/
def Reusable.detach (p : Pool α) (r : Reusable α) : Pool α × α :=
  (p, r.data)

/-- `impl Drop for Reusable`: `self.pool.attach(self.take())`. -/
def Reusable.drop (p : Pool α) (r : Reusable α) : Pool α :=
  p.attach r.data

/-- `ReusableOwned<T>`: the owned guard; holds `ManuallyDrop<Arc<Pool<T>>>`
and `ManuallyDrop<T>`. The `Arc` reference count is not observable in the
embedding; the pool side is again explicit state passing. -/
structure ReusableOwned (α : Type) where
  data : α
deriving DecidableEq

/-- `ReusableOwned::new(pool, t)`. -/
def ReusableOwned.new (t : α) : ReusableOwned α :=
  ⟨t⟩

/-- `Pool::try_pull_owned()`: same pop as `try_pull` but wraps in an owned
guard carrying a clone of the `Arc`. -/
def Pool.try_pull_owned (p : Pool α) : Option (ReusableOwned α) × Pool α :=
  match vecPop p.objects with
  | none => (none, p)
  | some (x, rest) => (some (ReusableOwned.new x), ⟨rest⟩)

/-- `Pool::pull_owned(fallback)`. -/
def Pool.pull_owned (p : Pool α) (fallback : Unit → α) : ReusableOwned α × Pool α :=
  match p.try_pull_owned with
  | (some r, p1) => (r, p1)
  | (none, p1) => (ReusableOwned.new (fallback ()), p1)

/-- `ReusableOwned::detach()`: yields the `Arc` handle and the owned value,
suppressing the destructor; the pool state is untouched. -/
def ReusableOwned.detach (p : Pool α) (r : ReusableOwned α) : Pool α × α :=
  (p, r.data)

/-- `impl Drop for ReusableOwned`: take the pool handle and the data, then
`pool.attach(data)`. -/
def ReusableOwned.drop (p : Pool α) (r : ReusableOwned α) : Pool α :=
  p.attach r.data

/-- Iterating `try_pull` `k` times, keeping only the pool state. -/
def Pool.pullN (p : Pool α) : Nat → Pool α
  | 0 => p
  | k + 1 => (p.try_pull).2.pullN k

/-- The two terminal events of a guard's life: scope exit (drop) or
explicit detach. Rust's ownership discipline guarantees exactly one of
them consumes any given guard. -/
inductive GuardEnd : Type
  | scopeExit : GuardEnd
  | detached : GuardEnd
deriving DecidableEq

/-- Finish a borrowed guard by its terminal event. Returns the pool state
after the event, the value handed to the caller (only on detach), and the
number of times the return action (`attach`) fired. -/
def Reusable.finish (p : Pool α) (r : Reusable α) : GuardEnd → Pool α × Option α × Nat
  | .scopeExit => (r.drop p, none, 1)
  | .detached => ((Reusable.detach p r).1, some (Reusable.detach p r).2, 0)

/-- Finish an owned guard by its terminal event. -/
def ReusableOwned.finish (p : Pool α) (r : ReusableOwned α) : GuardEnd → Pool α × Option α × Nat
  | .scopeExit => (r.drop p, none, 1)
  | .detached => ((ReusableOwned.detach p r).1, some (ReusableOwned.detach p r).2, 0)

/- Basic lemmas about the embedding. -/

theorem vecPop_nil : vecPop ([] : List α) = none := rfl

theorem vecPop_concat (l : List α) (x : α) :
    vecPop (l ++ [x]) = some (x, l) := by
  simp [vecPop, List.getLast?_concat]

theorem try_pull_len (p : Pool α) : (p.try_pull).2.len = p.len - 1 := by
  rcases p with ⟨l⟩
  induction l using List.reverseRecOn with
  | nil => rfl
  | append_singleton l x _ =>
      simp [Pool.try_pull, vecPop_concat, Pool.len]

theorem try_pull_none_iff (p : Pool α) :
    (p.try_pull).1 = none ↔ p.objects = [] := by
  rcases p with ⟨l⟩
  induction l using List.reverseRecOn with
  | nil => simp [Pool.try_pull, vecPop_nil]
  | append_singleton l x _ =>
      simp [Pool.try_pull, vecPop_concat]

theorem try_pull_concat (l : List α) (x : α) :
    (Pool.mk (l ++ [x])).try_pull = (some (Reusable.new x), Pool.mk l) := by
  simp [Pool.try_pull, vecPop_concat]

theorem try_pull_restore {p p1 : Pool α} {r : Reusable α}
    (h : p.try_pull = (some r, p1)) : p1.attach r.data = p := by
  rcases p with ⟨l⟩
  induction l using List.reverseRecOn with
  | nil => simp [Pool.try_pull, vecPop_nil] at h
  | append_singleton l x _ =>
      rw [try_pull_concat] at h
      obtain ⟨h1, h2⟩ := Prod.mk.injEq .. ▸ h
      cases h1
      cases h2
      rfl

theorem pullN_len (p : Pool α) (k : Nat) : (p.pullN k).len = p.len - k := by
  induction k generalizing p with
  | zero => rfl
  | succ k ih =>
      rw [Pool.pullN, ih, try_pull_len]
      omega

theorem try_pull_isSome_iff (p : Pool α) :
    (p.try_pull).1.isSome = true ↔ 0 < p.len := by
  rw [Option.isSome_iff_ne_none, ne_eq, try_pull_none_iff, Pool.len]
  simp [List.length_pos]

/-- C1: a pool freshly built by `Pool::new(N, init)` yields exactly `N`
successive successful `try_pull` calls (every pull among the first `N` is
non-empty), and the `(N+1)`-th `try_pull` returns `None`. -/
theorem pool_new_exact_pulls (N : Nat) (init : Nat → α) :
    (∀ k, k < N → ((Pool.new N init).pullN k).try_pull.1.isSome = true) ∧
    ((Pool.new N init).pullN N).try_pull.1 = none := by
  have hlen : (Pool.new N init).len = N := by
    simp [Pool.new, Pool.len]
  refine ⟨fun k hk => ?_, ?_⟩
  · rw [try_pull_isSome_iff, pullN_len, hlen]
    omega
  · rw [try_pull_none_iff]
    have h := pullN_len (Pool.new N init) N
    rw [hlen, Nat.sub_self] at h
    exact List.length_eq_zero.mp h

/-- Witness for C1 at `N = 3`, `init = id`: the third pull (index 2)
succeeds and the fourth is empty. -/
theorem pool_new_exact_pulls_witness :
    ((Pool.new 3 (fun n => n)).pullN 2).try_pull.1.isSome = true ∧
    ((Pool.new 3 (fun n => n)).pullN 3).try_pull.1 = none :=
  ⟨(pool_new_exact_pulls 3 (fun n => n)).1 2 (by decide),
   (pool_new_exact_pulls 3 (fun n => n)).2⟩

/-- C2: the return action fires exactly once at scope exit (the pool gains
the wrapped value back and the attach count is 1), and after `detach` it
never fires (attach count 0, pool untouched) while the value passes to the
caller together with the pool handle; identically for `ReusableOwned`. -/
theorem guard_return_contract (p q : Pool α) (r : Reusable α) (s : ReusableOwned α) :
    Reusable.finish p r GuardEnd.scopeExit = (p.attach r.data, none, 1) ∧
    Reusable.finish p r GuardEnd.detached = (p, some r.data, 0) ∧
    ReusableOwned.finish q s GuardEnd.scopeExit = (q.attach s.data, none, 1) ∧
    ReusableOwned.finish q s GuardEnd.detached = (q, some s.data, 0) :=
  ⟨rfl, rfl, rfl, rfl⟩

/-- C3: `try_pull` returns `None` exactly when the stack is empty, and on a
non-empty stack it returns a guard wrapping the value popped from the top
(the last element of the `Vec`); it is a total function, never a failure. -/
theorem try_pull_empty_iff_and_top (p : Pool α) :
    ((p.try_pull).1 = none ↔ p.objects = []) ∧
    (∀ x l, p.objects = l ++ [x] →
      p.try_pull = (some (Reusable.new x), Pool.mk l)) := by
  refine ⟨try_pull_none_iff p, fun x l h => ?_⟩
  rcases p with ⟨m⟩
  cases h
  exact try_pull_concat l x

/-- Witness for C3: on `[]` the pull is empty; on `[1, 2]` the pull wraps
the top value `2` and leaves `[1]`. -/
theorem try_pull_empty_iff_and_top_witness :
    (Pool.mk ([] : List Nat)).try_pull.1 = none ∧
    (Pool.mk [1, 2]).try_pull = (some (Reusable.new 2), Pool.mk [1]) :=
  ⟨((try_pull_empty_iff_and_top (Pool.mk ([] : List Nat))).1).mpr rfl,
   (try_pull_empty_iff_and_top (Pool.mk [1, 2])).2 2 [1] rfl⟩

/-- C4: on an empty pool, `pull(fallback)` returns a guard wrapping the
fallback's output and the pool state is unchanged at pull time; the length
grows by one only once that guard is dropped. On a non-empty pool,
`pull(fallback)` returns exactly `try_pull`'s guard and successor state. -/
theorem pull_fallback_spec (p : Pool α) (f : Unit → α) :
    (p.objects = [] →
      (p.pull f).1 = Reusable.new (f ()) ∧ (p.pull f).2 = p ∧
      (Reusable.drop (p.pull f).2 (p.pull f).1).len = p.len + 1) ∧
    (p.objects ≠ [] →
      (p.pull f).2 = (p.try_pull).2 ∧ (p.try_pull).1 = some (p.pull f).1) := by
  rcases p with ⟨l⟩
  induction l using List.reverseRecOn with
  | nil =>
      refine ⟨fun _ => ⟨rfl, rfl, ?_⟩, fun h => absurd rfl h⟩
      simp [Pool.pull, Pool.try_pull, vecPop_nil, Reusable.drop, Pool.attach,
        vecPush, Pool.len]
  | append_singleton l x _ =>
      refine ⟨fun h => absurd h (by simp), fun _ => ?_⟩
      simp [Pool.pull, try_pull_concat]

/-- Witness for C4: fallback path on the empty pool, `try_pull` path on
`[5]`. -/
theorem pull_fallback_spec_witness :
    ((Pool.mk ([] : List Nat)).pull (fun _ => 7)).1 = Reusable.new 7 ∧
    ((Pool.mk [5]).pull (fun _ => 7)).2 = ((Pool.mk [5]).try_pull).2 :=
  ⟨((pull_fallback_spec (Pool.mk ([] : List Nat)) (fun _ => 7)).1 rfl).1,
   ((pull_fallback_spec (Pool.mk [5]) (fun _ => 7)).2 (by decide)).1⟩

/-- C5: `attach(v)` always succeeds, appends `v` at the top of the stack
leaving all other elements and their order unchanged, increases the length
by exactly one, and the next `try_pull` yields `v` and restores the pool. -/
theorem attach_spec (p : Pool α) (v : α) :
    (p.attach v).objects = p.objects ++ [v] ∧
    (p.attach v).len = p.len + 1 ∧
    (p.attach v).try_pull = (some (Reusable.new v), p) := by
  refine ⟨rfl, by simp [Pool.attach, vecPush, Pool.len], ?_⟩
  rcases p with ⟨l⟩
  exact try_pull_concat l v

/-- C6: LIFO order. From a pool holding at least two values (stack
`l ++ [b, a]`, so `a` on top), pulling yields `a` then `b`; dropping the
guards in pull order (`a`'s guard first, then `b`'s) leaves `l ++ [a, b]`,
so the next two pulls yield `b` then `a`. -/
theorem lifo_order (l : List α) (a b : α) :
    (Pool.mk (l ++ [b, a])).try_pull = (some (Reusable.new a), Pool.mk (l ++ [b])) ∧
    (Pool.mk (l ++ [b])).try_pull = (some (Reusable.new b), Pool.mk l) ∧
    Reusable.drop (Pool.mk l) (Reusable.new a) = Pool.mk (l ++ [a]) ∧
    Reusable.drop (Pool.mk (l ++ [a])) (Reusable.new b) = Pool.mk (l ++ [a, b]) ∧
    (Pool.mk (l ++ [a, b])).try_pull = (some (Reusable.new b), Pool.mk (l ++ [a])) ∧
    (Pool.mk (l ++ [a])).try_pull = (some (Reusable.new a), Pool.mk l) := by
  refine ⟨?_, try_pull_concat l b, rfl, ?_, ?_, try_pull_concat l a⟩
  · simpa using try_pull_concat (l ++ [b]) a
  · simp [Reusable.drop, Reusable.new, Pool.attach, vecPush]
  · simpa using try_pull_concat (l ++ [a]) b

/-- C7: round trip. If `try_pull` on a non-empty pool returns guard `r` and
successor state `p1`, then dropping `r` restores exactly the original pool:
its length equals the length before the pull and the next `try_pull` yields
`r`'s value again. -/
theorem pull_then_return_roundtrip (p p1 : Pool α) (r : Reusable α)
    (h : p.try_pull = (some r, p1)) :
    Reusable.drop p1 r = p ∧
    (Reusable.drop p1 r).len = p.len ∧
    (Reusable.drop p1 r).try_pull.1 = some r := by
  have h1 : Reusable.drop p1 r = p := try_pull_restore h
  refine ⟨h1, by rw [h1], ?_⟩
  rw [h1, h]

/-- Witness for C7: pulling from `[1, 2]` gives guard `2` and state `[1]`;
dropping the guard restores `[1, 2]`. -/
theorem pull_then_return_roundtrip_witness :
    Reusable.drop (Pool.mk [1]) (Reusable.new 2) = Pool.mk [1, 2] :=
  (pull_then_return_roundtrip (Pool.mk [1, 2]) (Pool.mk [1])
    (Reusable.new 2) (by decide)).1

/-- C8: `detach` hands back exactly the wrapped value unchanged, and a later
`attach` of that value onto any pool state `q` puts the bit-identical value
on top, so a subsequent `try_pull` yields it again. -/
theorem detach_attach_roundtrip (p q : Pool α) (r : Reusable α) :
    (Reusable.detach p r).2 = r.data ∧
    (q.attach (Reusable.detach p r).2).try_pull =
      (some (Reusable.new r.data), q) := by
  refine ⟨rfl, ?_⟩
  rcases q with ⟨l⟩
  exact try_pull_concat l r.data

/-- C9: constructing a borrowed guard directly around `v` via
`Reusable::new(&pool, v)` and dropping it has exactly the same effect on the
pool as calling `pool.attach(v)`: the `Drop` impl is precisely an `attach`
of the taken value. -/
theorem reusable_new_drop_eq_attach (p : Pool α) (v : α) :
    Reusable.drop p (Reusable.new v) = p.attach v :=
  rfl

/-- C10: frame property of `detach`. Detaching a guard (borrowed or owned)
leaves the pool's stack completely unchanged: same contents, same length. -/
theorem detach_frame (p q : Pool α) (r : Reusable α) (s : ReusableOwned α) :
    (Reusable.detach p r).1.objects = p.objects ∧
    (Reusable.detach p r).1.len = p.len ∧
    (ReusableOwned.detach q s).1.objects = q.objects ∧
    (ReusableOwned.detach q s).1.len = q.len :=
  ⟨rfl, rfl, rfl, rfl⟩

end ObjectPool
